import Mathlib

/-!
Shallow embedding of the extraction-diagnostics and worker-health subsystem:
the DebugLogger session tracker (src/server/utils/debug-logger.ts) and the
process-recycling utilities (MemoryMonitor, ProcessRecyclingManager).

JavaScript numbers that matter to the claims are modelled as follows:
timestamps and byte counts as Nat, durations (differences of timestamps)
as Int, megabyte quantities (divisions by 1024*1024) as Rat.
Side effects are made explicit: console.warn output is returned as a list
of warning strings, file writes are returned as data, and the fresh
process.memoryUsage() sample taken inside a function becomes an explicit
argument of that function.  An operation that would throw a TypeError at
runtime returns none.
-/

set_option autoImplicit false

namespace Reverty

/-- Raw process.memoryUsage() sample, in bytes. -/
structure NodeMemory where
  heapUsed : Nat
  heapTotal : Nat
  external : Nat
  rss : Nat
  deriving DecidableEq

/-- JavaScript Math.round: nearest integer, halves toward positive infinity. -/
def jsRound (x : Rat) : Int := ⌊x + 1/2⌋

/-- Math.round(bytes / 1024 / 1024 * 100) / 100, the two-decimal MB rounding
used by recordCheckpoint. -/
def roundMB2 (bytes : Nat) : Rat := (jsRound ((bytes : Rat) / 1024 / 1024 * 100) : Rat) / 100

/-- Memory snapshot stored in a TimingCheckpoint (MB, two decimals). -/
structure MemSnap where
  heapUsed : Rat
  heapTotal : Rat
  external : Rat
  rss : Rat
  deriving DecidableEq

def roundSnap (m : NodeMemory) : MemSnap :=
  { heapUsed := roundMB2 m.heapUsed
    heapTotal := roundMB2 m.heapTotal
    external := roundMB2 m.external
    rss := roundMB2 m.rss }

/-- domState payload of a MethodAttempt. -/
structure DomState where
  canvasFound : Bool
  canvasDimensions : Option (Nat × Nat) := none
  shadowRootFound : Bool
  smartframeEmbedFound : Bool
  selectors : List String
  deriving DecidableEq

/-- extractionDetails payload of a MethodAttempt. -/
structure ExtractionDetails where
  format : Option String := none
  size : Option Nat := none
  dimensions : Option (Nat × Nat) := none
  checksumStable : Option Bool := none
  deriving DecidableEq

/-- One ranked extraction-method attempt (interface MethodAttempt). -/
structure MethodAttempt where
  methodName : String
  methodNumber : Nat
  startTime : Nat
  endTime : Option Nat := none
  duration : Option Int := none
  success : Bool := false
  error : Option String := none
  domState : Option DomState := none
  extractionDetails : Option ExtractionDetails := none
  deriving DecidableEq

/-- A stored stage object.  In the source every stage value is a structural
object spreading a TimingCheckpoint with stage-specific detail; the fields
the claims inspect (the canvas-extraction ones) are modelled as optional
fields that are none when the JavaScript object lacks the property, and any
other detail keys are carried opaquely in extra. -/
structure StageEntry where
  name : String
  timestamp : Nat
  elapsed : Int
  memory : Option MemSnap := none
  mode : Option String := none
  totalAttempts : Option Nat := none
  successfulMethod : Option String := none
  methods : Option (List MethodAttempt) := none
  extra : List (String × String) := []
  deriving DecidableEq

/-- Detail argument of recordCheckpoint (details?: any), restricted to the
keys the stages record can hold; absent keys are none. -/
structure CheckpointDetail where
  mode : Option String := none
  totalAttempts : Option Nat := none
  successfulMethod : Option String := none
  methods : Option (List MethodAttempt) := none
  extra : List (String × String) := []
  deriving DecidableEq

/-- processState of a session.  The declared interface fields plus the extra
keys that process-recycling.ts merges in at runtime through the object
spread. -/
structure ProcessState where
  browserRestarts : Nat
  memoryAtStart : Option (Rat × Rat) := none
  memoryAtEnd : Option (Rat × Rat) := none
  taskNumber : Option Nat := none
  queuePosition : Option Nat := none
  memoryMB : Option Rat := none
  recycleReason : Option String := none
  willRecycle : Option Bool := none
  browserRestart : Option Bool := none
  previousTasksCompleted : Option Nat := none
  deriving DecidableEq

/-- Partial<ProcessState>: present fields overwrite, absent fields keep. -/
structure PartialProcessState where
  browserRestarts : Option Nat := none
  memoryAtStart : Option (Rat × Rat) := none
  memoryAtEnd : Option (Rat × Rat) := none
  taskNumber : Option Nat := none
  queuePosition : Option Nat := none
  memoryMB : Option Rat := none
  recycleReason : Option String := none
  willRecycle : Option Bool := none
  browserRestart : Option Bool := none
  previousTasksCompleted : Option Nat := none
  deriving DecidableEq

/-- Spread merge of a partial process state onto a full one. -/
def mergeProcessState (p : ProcessState) (q : PartialProcessState) : ProcessState :=
  { browserRestarts := q.browserRestarts.getD p.browserRestarts
    memoryAtStart := q.memoryAtStart.orElse fun _ => p.memoryAtStart
    memoryAtEnd := q.memoryAtEnd.orElse fun _ => p.memoryAtEnd
    taskNumber := q.taskNumber.orElse fun _ => p.taskNumber
    queuePosition := q.queuePosition.orElse fun _ => p.queuePosition
    memoryMB := q.memoryMB.orElse fun _ => p.memoryMB
    recycleReason := q.recycleReason.orElse fun _ => p.recycleReason
    willRecycle := q.willRecycle.orElse fun _ => p.willRecycle
    browserRestart := q.browserRestart.orElse fun _ => p.browserRestart
    previousTasksCompleted := q.previousTasksCompleted.orElse fun _ => p.previousTasksCompleted }

/-- outcome of a session. -/
structure Outcome where
  success : Bool
  error : Option String := none
  errorStack : Option String := none
  skipped : Option Bool := none
  skipReason : Option String := none
  retryAttempt : Option Nat := none
  deriving DecidableEq

/-- diagnostics of a session. -/
structure Diagnostics where
  screenshotPath : Option String := none
  htmlSnapshotPath : Option String := none
  consoleLogs : Option (List String) := none
  networkErrors : Option (List String) := none
  deriving DecidableEq

/-- interface ImageDebugSession.  The stages record is an association list
from stage name to stage object (object keys are unique; a new key is
appended, an existing key is overwritten in place). -/
structure ImageDebugSession where
  imageId : String
  jobId : String
  url : String
  startTime : Nat
  endTime : Option Nat := none
  totalDuration : Option Int := none
  stages : List (String × StageEntry) := []
  processState : ProcessState
  outcome : Outcome
  diagnostics : Option Diagnostics := none
  deriving DecidableEq

/-- Property write on a JavaScript object / Map.set: overwrite the first
binding with this key in place, else append. -/
def setKey {α : Type} : List (String × α) → String → α → List (String × α)
  | [], k, v => [(k, v)]
  | (k', v') :: rest, k, v =>
      if k' = k then (k, v) :: rest else (k', v') :: setKey rest k v

/-- Property read: first binding with this key. -/
def getKey {α : Type} (l : List (String × α)) (k : String) : Option α :=
  (l.find? fun p => p.1 = k).map fun p => p.2

/-- The canvasExtraction stage of a session, when present. -/
def canvasOf (s : ImageDebugSession) : Option StageEntry :=
  getKey s.stages "canvasExtraction"

/- ----------------------------------------------------------------------
MemoryMonitor and ProcessRecyclingManager (process-recycling source file)
---------------------------------------------------------------------- -/

/-- State of MemoryMonitor: baseline heap (bytes) and baseline time. -/
structure MemoryMonitor where
  initialMemory : Nat := 0
  startTime : Nat := 0
  deriving DecidableEq

namespace MemoryMonitor

/-- MemoryMonitor.start: records the current heap-used and time as baseline
(the optional forced garbage collection has no modelled effect). -/
def start (mem : NodeMemory) (now : Nat) : MemoryMonitor :=
  { initialMemory := mem.heapUsed, startTime := now }

/-- MemoryMonitor.shouldRecycle: true iff the freshly sampled heap-used in MB
exceeds maxMemoryMB.  The fresh sample is the heapUsedMB argument. -/
def shouldRecycle (heapUsedMB : Rat) (maxMemoryMB : Rat := 300) : Bool :=
  heapUsedMB > maxMemoryMB

end MemoryMonitor

/-- State of ProcessRecyclingManager. -/
structure ProcessRecyclingManager where
  tasksCompleted : Nat := 0
  maxTasksPerCycle : Nat := 1
  memoryMonitor : MemoryMonitor := {}
  memoryThresholdMB : Rat := 300
  deriving DecidableEq

namespace ProcessRecyclingManager

/-- new ProcessRecyclingManager(maxTasksPerCycle = 1): stores the budget and
starts the embedded monitor; the memory threshold is the fixed 300. -/
def create (maxTasksPerCycle : Nat := 1) (mem : NodeMemory := {heapUsed := 0, heapTotal := 0, external := 0, rss := 0}) (now : Nat := 0) : ProcessRecyclingManager :=
  { tasksCompleted := 0
    maxTasksPerCycle := maxTasksPerCycle
    memoryMonitor := MemoryMonitor.start mem now
    memoryThresholdMB := 300 }

/-- recordTaskComplete: increments the task counter. -/
def recordTaskComplete (st : ProcessRecyclingManager) : ProcessRecyclingManager :=
  { st with tasksCompleted := st.tasksCompleted + 1 }

/-- shouldRecycle decision: taskCountExceeded OR the monitor threshold check
on a fresh heap sample.  heapUsedMB is the freshly sampled heap-used in MB
at the moment of the call (the source samples process.memoryUsage() inside
the function; both the local sample and the monitor sample are taken at the
same call, so a single argument stands for both).  The logging and the
recordProcessState side effect do not change the returned decision. -/
def shouldRecycle (st : ProcessRecyclingManager) (heapUsedMB : Rat) : Bool :=
  (st.tasksCompleted ≥ st.maxTasksPerCycle) || MemoryMonitor.shouldRecycle heapUsedMB st.memoryThresholdMB

/-- reset: zeroes the task counter and re-baselines the monitor from a fresh
sample.  The optional recordProcessState side effect (when an imageId is
supplied) touches only the session tracker, not this state. -/
def reset (st : ProcessRecyclingManager) (mem : NodeMemory) (now : Nat) : ProcessRecyclingManager :=
  { st with tasksCompleted := 0, memoryMonitor := MemoryMonitor.start mem now }

/-- getTasksCompleted accessor. -/
def getTasksCompleted (st : ProcessRecyclingManager) : Nat :=
  st.tasksCompleted

end ProcessRecyclingManager

/- ----------------------------------------------------------------------
DebugLogger (src/server/utils/debug-logger.ts)

The live-session map currentSession is an association list keyed by
imageId.  Each operation returns the new map together with the list of
console.warn messages it emitted; an operation that would throw a
TypeError in JavaScript returns none.
---------------------------------------------------------------------- -/

/-- The currentSession map of the DebugLogger. -/
abbrev Sessions : Type := List (String × ImageDebugSession)

/-- currentSession.get(imageId). -/
def getSession (m : Sessions) (imageId : String) : Option ImageDebugSession :=
  getKey m imageId

/-- currentSession.set(imageId, session). -/
def setSession (m : Sessions) (imageId : String) (s : ImageDebugSession) : Sessions :=
  setKey m imageId s

/-- currentSession.delete(imageId): remove the binding when present. -/
def deleteSession : Sessions → String → Sessions
  | [], _ => []
  | (k, v) :: rest, imageId =>
      if k = imageId then rest else (k, v) :: deleteSession rest imageId

namespace DebugLogger

/-- The fresh session built by startImageSession. -/
def freshSession (imageId jobId url : String) (now : Nat) : ImageDebugSession :=
  { imageId := imageId
    jobId := jobId
    url := url
    startTime := now
    stages := []
    processState := { browserRestarts := 0 }
    outcome := { success := false } }

/-- startImageSession: builds a fresh session and stores it under imageId
unconditionally (Map.set overwrites any existing binding). -/
def startImageSession (m : Sessions) (imageId jobId url : String) (now : Nat) : Sessions :=
  setSession m imageId (freshSession imageId jobId url now)

/-- The stage object recordCheckpoint stores: the fresh checkpoint fields
spread together with the supplied detail. -/
def mergedCheckpointEntry (s : ImageDebugSession) (stageName : String)
    (details : CheckpointDetail) (now : Nat) (mem : NodeMemory) : StageEntry :=
  { name := stageName
    timestamp := now
    elapsed := (now : Int) - (s.startTime : Int)
    memory := some (roundSnap mem)
    mode := details.mode
    totalAttempts := details.totalAttempts
    successfulMethod := details.successfulMethod
    methods := details.methods
    extra := details.extra }

/-- recordCheckpoint: warns and no-ops when there is no session; otherwise
stores at the stage name a fresh checkpoint spread together with the
supplied detail, replacing any previous value of that stage wholesale. -/
def recordCheckpoint (m : Sessions) (imageId stageName : String)
    (details : CheckpointDetail) (now : Nat) (mem : NodeMemory) :
    Sessions × List String :=
  match getSession m imageId with
  | none => (m, ["No session found for " ++ imageId])
  | some s =>
      (setSession m imageId
        { s with stages :=
            setKey s.stages stageName (mergedCheckpointEntry s stageName details now mem) }, [])

/-- The MethodAttempt object pushed by recordMethodAttempt. -/
def mkAttempt (methodName : String) (methodNumber startTime : Nat) : MethodAttempt :=
  { methodName := methodName
    methodNumber := methodNumber
    startTime := startTime
    success := false }

/-- The lazily created canvas-extraction stage object. -/
def freshCanvasStage (s : ImageDebugSession) (startTime : Nat) : StageEntry :=
  { name := "canvasExtraction"
    timestamp := startTime
    elapsed := (startTime : Int) - (s.startTime : Int)
    mode := some "unknown"
    totalAttempts := some 0
    methods := some [] }

/-- Session-level body of recordMethodAttempt: lazily creates the
canvas-extraction stage, then pushes the new attempt and increments
totalAttempts.  When the stage exists but its methods property is absent
(possible after a checkpoint replaced the stage) the push on undefined
throws in JavaScript: modelled as none.  An absent totalAttempts would
silently become NaN rather than throw; modelled as staying absent. -/
def recAttemptS (s : ImageDebugSession) (methodName : String)
    (methodNumber startTime : Nat) : Option ImageDebugSession :=
  let stage0 := match canvasOf s with
    | some e => e
    | none => freshCanvasStage s startTime
  match stage0.methods with
  | none => none
  | some ms =>
      let stage1 := { stage0 with
        methods := some (ms ++ [mkAttempt methodName methodNumber startTime])
        totalAttempts := stage0.totalAttempts.map (· + 1) }
      some { s with stages := setKey s.stages "canvasExtraction" stage1 }

/-- recordMethodAttempt: silent no-op when no session exists (no warning in
the source), otherwise the session-level body. -/
def recordMethodAttempt (m : Sessions) (imageId methodName : String)
    (methodNumber startTime : Nat) : Option (Sessions × List String) :=
  match getSession m imageId with
  | none => some (m, [])
  | some s =>
      (recAttemptS s methodName methodNumber startTime).map
        fun s' => (setSession m imageId s', [])

/-- Replace the first element whose methodNumber matches (the source finds
the object by rank and mutates it in place). -/
def updateFirst (l : List MethodAttempt) (methodNumber : Nat)
    (f : MethodAttempt → MethodAttempt) : List MethodAttempt :=
  match l with
  | [] => []
  | a :: rest =>
      if a.methodNumber = methodNumber then f a :: rest
      else a :: updateFirst rest methodNumber f

/-- The field updates recordMethodResult performs on the found attempt. -/
def applyOutcome (now : Nat) (success : Bool) (error : Option String)
    (domState : Option DomState) (extractionDetails : Option ExtractionDetails)
    (a : MethodAttempt) : MethodAttempt :=
  { a with
    endTime := some now
    duration := some ((now : Int) - (a.startTime : Int))
    success := success
    error := error
    domState := domState
    extractionDetails := extractionDetails }

/-- Session-level body of recordMethodResult: returns the session unchanged
when the canvas stage is absent or no attempt has the given rank; updates
the found attempt in place, and when success is true also sets the stage's
successfulMethod to the found attempt's name.  When the stage exists but
its methods property is absent, the find on undefined throws: none. -/
def recResultS (s : ImageDebugSession) (methodNumber : Nat) (success : Bool)
    (error : Option String) (domState : Option DomState)
    (extractionDetails : Option ExtractionDetails) (now : Nat) :
    Option ImageDebugSession :=
  match canvasOf s with
  | none => some s
  | some stage =>
      match stage.methods with
      | none => none
      | some ms =>
          match ms.find? fun a => a.methodNumber = methodNumber with
          | none => some s
          | some found =>
              let ms' := updateFirst ms methodNumber
                (applyOutcome now success error domState extractionDetails)
              let stage' := { stage with
                methods := some ms'
                successfulMethod :=
                  if success then some found.methodName else stage.successfulMethod }
              some { s with stages := setKey s.stages "canvasExtraction" stage' }

/-- recordMethodResult: silent no-op when no session exists, otherwise the
session-level body. -/
def recordMethodResult (m : Sessions) (imageId : String) (methodNumber : Nat)
    (success : Bool) (error : Option String) (domState : Option DomState)
    (extractionDetails : Option ExtractionDetails) (now : Nat) :
    Option (Sessions × List String) :=
  match getSession m imageId with
  | none => some (m, [])
  | some s =>
      (recResultS s methodNumber success error domState extractionDetails now).map
        fun s' => (setSession m imageId s', [])

/-- recordProcessState: silent no-op when no session exists, else spread
merge onto the session's processState. -/
def recordProcessState (m : Sessions) (imageId : String)
    (state : PartialProcessState) : Sessions × List String :=
  match getSession m imageId with
  | none => (m, [])
  | some s =>
      (setSession m imageId
        { s with processState := mergeProcessState s.processState state }, [])

/-- recordOutcome: silent no-op when no session exists, else sets end time,
total duration and the outcome record. -/
def recordOutcome (m : Sessions) (imageId : String) (success : Bool)
    (error errorStack : Option String) (skipped : Option Bool)
    (skipReason : Option String) (now : Nat) : Sessions × List String :=
  match getSession m imageId with
  | none => (m, [])
  | some s =>
      (setSession m imageId
        { s with
          endTime := some now
          totalDuration := some ((now : Int) - (s.startTime : Int))
          outcome :=
            { success := success
              error := error
              errorStack := errorStack
              skipped := skipped
              skipReason := skipReason } }, [])

/-- A diagnostic artifact written to durable storage. -/
structure WrittenFile where
  path : String
  deriving DecidableEq

/-- saveDiagnostics: silent no-op when no session exists; otherwise writes
the provided artifacts under the per-task directory and records their paths
and the captured log lines on the session. -/
def saveDiagnostics (m : Sessions) (imageId : String)
    (screenshot : Option String) (htmlSnapshot : Option String)
    (consoleLogs : Option (List String)) (networkErrors : Option (List String)) :
    Sessions × List String × List WrittenFile :=
  match getSession m imageId with
  | none => (m, [], [])
  | some s =>
      let d0 := s.diagnostics.getD {}
      let dir := imageId
      let shotPath := dir ++ "/failure-screenshot.png"
      let htmlPath := dir ++ "/failure-dom.html"
      let d1 := match screenshot with
        | some _ => { d0 with screenshotPath := some shotPath }
        | none => d0
      let d2 := match htmlSnapshot with
        | some _ => { d1 with htmlSnapshotPath := some htmlPath }
        | none => d1
      let d3 := match consoleLogs with
        | some ls => { d2 with consoleLogs := some ls }
        | none => d2
      let d4 := match networkErrors with
        | some ls => { d3 with networkErrors := some ls }
        | none => d3
      let files :=
        (match screenshot with | some _ => [({path := shotPath} : WrittenFile)] | none => [])
        ++ (match htmlSnapshot with | some _ => [({path := htmlPath} : WrittenFile)] | none => [])
      (setSession m imageId { s with diagnostics := some d4 }, [], files)

/-- endImageSession: silent no-op when no session exists; otherwise fills in
missing end time and duration, persists the full session (returned as a
value), appends the summary line, and removes the session from the live
map. -/
def endImageSession (m : Sessions) (imageId : String) (now : Nat) :
    Sessions × List String × Option ImageDebugSession :=
  match getSession m imageId with
  | none => (m, [], none)
  | some s =>
      let s' :=
        match s.endTime with
        | some _ => s
        | none =>
            { s with
              endTime := some now
              totalDuration := some ((now : Int) - (s.startTime : Int)) }
      (deleteSession m imageId, [], some s')

end DebugLogger

/- ----------------------------------------------------------------------
Statistics Aggregator (DebugLogger.getMethodStatistics)

Inputs of the scan, made explicit: whether summary.jsonl exists, the number
of its non-empty lines, and the directory's .json files in listing order,
each either a parsed ImageDebugSession or none for a malformed file.
JSON.parse throwing on a malformed file aborts the whole call: Except.error.
---------------------------------------------------------------------- -/

namespace DebugLogger

/-- Per-method accumulator record of getMethodStatistics. -/
structure MethodStats where
  attempts : Nat
  successes : Nat
  failures : Nat
  avgDuration : Rat
  totalDuration : Int
  deriving DecidableEq

/-- The zero record inserted when a method name is first seen. -/
def zeroStats : MethodStats :=
  { attempts := 0, successes := 0, failures := 0, avgDuration := 0, totalDuration := 0 }

/-- Accumulate one MethodAttempt into the per-method table.  The duration is
added only when the property is truthy (present and non-zero). -/
def updateStats (table : List (String × MethodStats)) (a : MethodAttempt) :
    List (String × MethodStats) :=
  let cur := (getKey table a.methodName).getD zeroStats
  let cur' : MethodStats :=
    { cur with
      attempts := cur.attempts + 1
      successes := cur.successes + (if a.success then 1 else 0)
      failures := cur.failures + (if a.success then 0 else 1)
      totalDuration := cur.totalDuration +
        (match a.duration with
         | some d => if d = 0 then 0 else d
         | none => 0) }
  setKey table a.methodName cur'

/-- Accumulate one parsed session: only sessions whose canvas-extraction
stage has a methods property contribute. -/
def accumSession (table : List (String × MethodStats)) (s : ImageDebugSession) :
    List (String × MethodStats) :=
  match canvasOf s with
  | none => table
  | some stage =>
      match stage.methods with
      | none => table
      | some ms => ms.foldl updateStats table

/-- Scan the .json files in order; a malformed file throws out of the loop. -/
def accumFiles (table : List (String × MethodStats)) :
    List (Option ImageDebugSession) → Except Unit (List (String × MethodStats))
  | [] => Except.ok table
  | none :: _ => Except.error ()
  | some s :: rest => accumFiles (accumSession table s) rest

/-- Final pass: avgDuration := totalDuration / attempts. -/
def finalizeStats (table : List (String × MethodStats)) : List (String × MethodStats) :=
  table.map fun p =>
    (p.1, { p.2 with avgDuration := (p.2.totalDuration : Rat) / (p.2.attempts : Rat) })

/-- Result shape of getMethodStatistics. -/
inductive StatsResult where
  | noData (message : String)
  | stats (totalSessions : Nat) (methodStatistics : List (String × MethodStats))
  deriving DecidableEq

/-- getMethodStatistics: reports the no-data message when summary.jsonl does
not exist; otherwise scans every persisted .json record (a malformed one
aborts the call with the parse error) and returns the summary line count
with the per-method table. -/
def getMethodStatistics (summaryExists : Bool) (summaryLines : Nat)
    (files : List (Option ImageDebugSession)) : Except Unit StatsResult :=
  if !summaryExists then Except.ok (StatsResult.noData "No summary data available yet")
  else
    match accumFiles [] files with
    | Except.error e => Except.error e
    | Except.ok table => Except.ok (StatsResult.stats summaryLines (finalizeStats table))

end DebugLogger

/- ----------------------------------------------------------------------
Derived definitions used by the theorems: call sequences and concrete
instances.
---------------------------------------------------------------------- -/

/-- A zero memory sample, used for concrete instances. -/
def nodeMem0 : NodeMemory :=
  { heapUsed := 0, heapTotal := 0, external := 0, rss := 0 }

/-- The session produced by a checkpoint on the canvas-extraction stage:
the stage binding is overwritten with the merged checkpoint entry. -/
def DebugLogger.canvasReplaced (s : ImageDebugSession) (d : CheckpointDetail)
    (now : Nat) (mem : NodeMemory) : ImageDebugSession :=
  let entry := DebugLogger.mergedCheckpointEntry s "canvasExtraction" d now mem
  { s with stages := setKey s.stages "canvasExtraction" entry }

/-- One beginAttempt call: the method name, the caller-supplied rank, and
the caller-supplied start time. -/
structure AttemptCall where
  methodName : String
  rank : Nat
  startTime : Nat
  deriving DecidableEq

/-- Fold a sequence of beginAttempt calls over a session. -/
def beginAll (s : ImageDebugSession) : List AttemptCall → Option ImageDebugSession
  | [] => some s
  | c :: rest =>
      (DebugLogger.recAttemptS s c.methodName c.rank c.startTime).bind
        fun s' => beginAll s' rest

/-- The methods list of the canvas-extraction stage, when both exist. -/
def canvasMethods (s : ImageDebugSession) : Option (List MethodAttempt) :=
  (canvasOf s).bind fun st => st.methods

/-- The rank values stored in the canvas-extraction methods list. -/
def canvasRanks (s : ImageDebugSession) : Option (List Nat) :=
  (canvasMethods s).map (List.map MethodAttempt.methodNumber)

/-- The successfulMethod field of the canvas-extraction stage. -/
def canvasSuccessfulMethod (s : ImageDebugSession) : Option (Option String) :=
  (canvasOf s).map fun st => st.successfulMethod

/-- One recordAttemptResult call. -/
structure ResultCall where
  rank : Nat
  success : Bool
  error : Option String := none
  domState : Option DomState := none
  extractionDetails : Option ExtractionDetails := none
  now : Nat
  deriving DecidableEq

/-- Fold a sequence of recordAttemptResult calls over a session. -/
def applyResults (o : Option ImageDebugSession) (rs : List ResultCall) :
    Option ImageDebugSession :=
  rs.foldl
    (fun acc r => acc.bind fun s =>
      DebugLogger.recResultS s r.rank r.success r.error r.domState
        r.extractionDetails r.now)
    o

/-- Name of the first attempt with the given rank (the find of
recordMethodResult). -/
def firstNameAt (ms : List MethodAttempt) (k : Nat) : Option String :=
  (ms.find? fun a => a.methodNumber = k).map fun a => a.methodName

/-- How one recorded result updates the stage's successfulMethod. -/
def nextSM (ms : List MethodAttempt) (d : Option String) (r : ResultCall) :
    Option String :=
  if r.success then
    match firstNameAt ms r.rank with
    | some nm => some nm
    | none => d
  else d

/-- The name of the last successful result in recording order, else the
default. -/
def lastSuccessName (f : ResultCall → String) (rs : List ResultCall)
    (d : Option String) : Option String :=
  match (rs.filter fun r => r.success).getLast? with
  | some r => some (f r)
  | none => d

/-- The beginAttempt calls for a list of method names with ranks assigned
consecutively from i, all with the same start time. -/
def rankedCalls (t : Nat) : List String → Nat → List AttemptCall
  | [], _ => []
  | nm :: rest, i => { methodName := nm, rank := i, startTime := t } :: rankedCalls t rest (i + 1)

/-- The attempt object a beginAttempt call pushes. -/
def mkOfCall (c : AttemptCall) : MethodAttempt :=
  DebugLogger.mkAttempt c.methodName c.rank c.startTime

/-- The canvas stage after recordMethodResult finds an attempt: methods
updated in place, successfulMethod set on success. -/
def DebugLogger.resultStage (stage : StageEntry) (ms : List MethodAttempt)
    (r : ResultCall) (found : MethodAttempt) : StageEntry :=
  { stage with
    methods := (some (DebugLogger.updateFirst ms r.rank (DebugLogger.applyOutcome r.now r.success r.error r.domState r.extractionDetails)))
    successfulMethod := (if r.success then some found.methodName else stage.successfulMethod) }

/-- One of the three persisted scenario sessions: a single canvas-extraction
attempt of method viewport-render with the given duration and success. -/
def statSession (dur : Int) (suc : Bool) : ImageDebugSession :=
  { imageId := "img"
    jobId := "job"
    url := "u"
    startTime := 0
    stages := [("canvasExtraction",
      { name := "canvasExtraction"
        timestamp := 0
        elapsed := 0
        methods := some [{ methodName := "viewport-render", methodNumber := 1,
                           startTime := 0, duration := some dur, success := suc }] })]
    processState := { browserRestarts := 0 }
    outcome := { success := suc } }

/-- The three persisted records of the Statistics Aggregator scenario. -/
def scenarioFiles : List (Option ImageDebugSession) :=
  [some (statSession 100 true), some (statSession 200 true), some (statSession 50 false)]

/-- The per-method record the scenario must produce for viewport-render. -/
def scenarioStats : DebugLogger.MethodStats :=
  { attempts := 3, successes := 2, failures := 1,
    avgDuration := 350 / 3, totalDuration := 350 }

/- ----------------------------------------------------------------------
Theorems
---------------------------------------------------------------------- -/

lemma tasksCompleted_iterate (st : ProcessRecyclingManager) (k : Nat) :
    (ProcessRecyclingManager.recordTaskComplete^[k] st).tasksCompleted =
      st.tasksCompleted + k := by
  induction k with
  | zero => rfl
  | succ n ih =>
      rw [Function.iterate_succ_apply']
      simp [ProcessRecyclingManager.recordTaskComplete, ih]
      omega

lemma maxTasks_iterate (st : ProcessRecyclingManager) (k : Nat) :
    (ProcessRecyclingManager.recordTaskComplete^[k] st).maxTasksPerCycle =
      st.maxTasksPerCycle := by
  induction k with
  | zero => rfl
  | succ n ih =>
      rw [Function.iterate_succ_apply']
      simp [ProcessRecyclingManager.recordTaskComplete, ih]

lemma threshold_iterate (st : ProcessRecyclingManager) (k : Nat) :
    (ProcessRecyclingManager.recordTaskComplete^[k] st).memoryThresholdMB =
      st.memoryThresholdMB := by
  induction k with
  | zero => rfl
  | succ n ih =>
      rw [Function.iterate_succ_apply']
      simp [ProcessRecyclingManager.recordTaskComplete, ih]

/-- C1: for every manager state and every freshly sampled heap-used in MB,
shouldRecycle is true iff the completed-task counter has reached
maxTasksPerCycle or the fresh sample exceeds the memory threshold (300 for
every constructed manager) — the iff holds unconditionally, so a sample
above 300 triggers recycling on its own; with maxTasksPerCycle = 3 and
memory below the threshold it is false after 1 and 2 recordTaskComplete
calls and true after the 3rd, and with the constructor default
maxTasksPerCycle = 1 it is true immediately after the first completed
task. -/
theorem shouldRecycle_iff_taskLimit_or_memory
    (st : ProcessRecyclingManager) (heap : Rat) (mem : NodeMemory) (t : Nat) :
    (st.shouldRecycle heap = true ↔
       st.maxTasksPerCycle ≤ st.tasksCompleted ∨ st.memoryThresholdMB < heap)
  ∧ (ProcessRecyclingManager.create 3 mem t).memoryThresholdMB = 300
  ∧ (heap ≤ 300 →
      (ProcessRecyclingManager.recordTaskComplete^[1]
        (ProcessRecyclingManager.create 3 mem t)).shouldRecycle heap = false)
  ∧ (heap ≤ 300 →
      (ProcessRecyclingManager.recordTaskComplete^[2]
        (ProcessRecyclingManager.create 3 mem t)).shouldRecycle heap = false)
  ∧ ((ProcessRecyclingManager.recordTaskComplete^[3]
        (ProcessRecyclingManager.create 3 mem t)).shouldRecycle heap = true)
  ∧ ((ProcessRecyclingManager.recordTaskComplete^[1]
        (ProcessRecyclingManager.create 1 mem t)).shouldRecycle heap = true) := by
  refine ⟨?_, rfl, ?_, ?_, ?_, ?_⟩
  · simp [ProcessRecyclingManager.shouldRecycle, MemoryMonitor.shouldRecycle, ge_iff_le]
  · intro hheap
    have hmem : MemoryMonitor.shouldRecycle heap 300 = false := by
      simp [MemoryMonitor.shouldRecycle]
      exact hheap
    simp [ProcessRecyclingManager.shouldRecycle, tasksCompleted_iterate,
      maxTasks_iterate, threshold_iterate, ProcessRecyclingManager.create,
      ProcessRecyclingManager.recordTaskComplete, hmem]
  · intro hheap
    have hmem : MemoryMonitor.shouldRecycle heap 300 = false := by
      simp [MemoryMonitor.shouldRecycle]
      exact hheap
    simp [ProcessRecyclingManager.shouldRecycle, tasksCompleted_iterate,
      maxTasks_iterate, threshold_iterate, ProcessRecyclingManager.create,
      ProcessRecyclingManager.recordTaskComplete, hmem]
  all_goals
    simp [ProcessRecyclingManager.shouldRecycle, tasksCompleted_iterate,
      maxTasks_iterate, threshold_iterate, ProcessRecyclingManager.create,
      ProcessRecyclingManager.recordTaskComplete]

/-- Witness for shouldRecycle_iff_taskLimit_or_memory: at heap = 0 the
below-threshold scenario conjunct applies, and at heap = 350 the
unconditional iff establishes memory-triggered recycling with the task
counter still at zero. -/
theorem shouldRecycle_iff_taskLimit_or_memory_witness :
    (0 : Rat) ≤ 300 ∧
    ((ProcessRecyclingManager.recordTaskComplete^[1]
        (ProcessRecyclingManager.create 3 nodeMem0 0)).shouldRecycle 0 = false) ∧
    ((ProcessRecyclingManager.create 3 nodeMem0 0).shouldRecycle 350 = true) :=
  ⟨by norm_num,
   (shouldRecycle_iff_taskLimit_or_memory
      (ProcessRecyclingManager.create 3 nodeMem0 0) 0 nodeMem0 0).2.2.1 (by norm_num),
   (shouldRecycle_iff_taskLimit_or_memory
      (ProcessRecyclingManager.create 3 nodeMem0 0) 350 nodeMem0 0).1.mpr
     (Or.inr (by norm_num [ProcessRecyclingManager.create]))⟩

/-- C6: reset zeroes the task counter (getTasksCompleted returns 0), and a
subsequent shouldRecycle with memory below the threshold returns false
after k further recordTaskComplete calls whenever k < maxTasksPerCycle,
and returns true once recordTaskComplete has again been called
maxTasksPerCycle times. -/
theorem reset_zeroes_and_recycles_only_at_limit
    (st : ProcessRecyclingManager) (mem : NodeMemory) (now : Nat)
    (heap : Rat) (k : Nat)
    (hheap : heap ≤ st.memoryThresholdMB) :
    (st.reset mem now).getTasksCompleted = 0
  ∧ (k < st.maxTasksPerCycle →
      (ProcessRecyclingManager.recordTaskComplete^[k]
        (st.reset mem now)).shouldRecycle heap = false)
  ∧ ((ProcessRecyclingManager.recordTaskComplete^[st.maxTasksPerCycle]
        (st.reset mem now)).shouldRecycle heap = true) := by
  have hth : (st.reset mem now).memoryThresholdMB = st.memoryThresholdMB := rfl
  have hmem : MemoryMonitor.shouldRecycle heap st.memoryThresholdMB = false := by
    simp [MemoryMonitor.shouldRecycle]
    exact hheap
  refine ⟨rfl, ?_, ?_⟩
  · intro hk
    simp [ProcessRecyclingManager.shouldRecycle, tasksCompleted_iterate,
      maxTasks_iterate, threshold_iterate, ProcessRecyclingManager.reset, hmem]
    omega
  · simp [ProcessRecyclingManager.shouldRecycle, tasksCompleted_iterate,
      maxTasks_iterate, threshold_iterate, ProcessRecyclingManager.reset]

lemma getKey_setKey_self {α : Type} (l : List (String × α)) (k : String) (v : α) :
    getKey (setKey l k v) k = some v := by
  induction l with
  | nil => simp [setKey, getKey]
  | cons p rest ih =>
      by_cases h : p.1 = k
      · simp [setKey, getKey, h]
      · simp only [setKey]
        rw [if_neg h]
        simpa [getKey, h] using ih

lemma getKey_setKey_ne {α : Type} (l : List (String × α)) (k k' : String) (v : α)
    (h : k' ≠ k) : getKey (setKey l k v) k' = getKey l k' := by
  induction l with
  | nil => simp [setKey, getKey, Ne.symm h]
  | cons p rest ih =>
      by_cases hp : p.1 = k
      · simp [setKey, getKey, hp, h, Ne.symm h]
      · simp only [setKey]
        rw [if_neg hp]
        by_cases hp' : p.1 = k'
        · simp [getKey, hp']
        · simpa [getKey, hp'] using ih

/-- C3 counterexample: starting the same task id a second time does not
leave the existing session unchanged; the stored session afterwards is the
fresh one from the second call, whose jobId differs from the first. -/
theorem startImageSession_double_start_counterexample :
    getSession (DebugLogger.startImageSession
        (DebugLogger.startImageSession [] "t1" "j1" "u1" 10) "t1" "j2" "u2" 20) "t1" =
      some (DebugLogger.freshSession "t1" "j2" "u2" 20)
  ∧ (DebugLogger.freshSession "t1" "j2" "u2" 20).jobId ≠
      (DebugLogger.freshSession "t1" "j1" "u1" 10).jobId := by
  constructor
  · rfl
  · decide

/-- C3 amended: calling start for a task id that already has a live session
is not a no-op: it unconditionally replaces the stored session with a fresh
one (empty stages, zeroed process state, non-success outcome, the new job
id, url and start time), while sessions of other task ids are unchanged. -/
theorem startImageSession_replaces_existing
    (m : Sessions) (imageId jobId url : String) (now : Nat) (other : String)
    (h : other ≠ imageId) :
    getSession (DebugLogger.startImageSession m imageId jobId url now) imageId =
      some (DebugLogger.freshSession imageId jobId url now)
  ∧ getSession (DebugLogger.startImageSession m imageId jobId url now) other =
      getSession m other := by
  constructor
  · exact getKey_setKey_self m imageId _
  · exact getKey_setKey_ne m imageId other _ h

/-- Witness for startImageSession_replaces_existing. -/
theorem startImageSession_replaces_existing_witness :
    "t2" ≠ "t1" ∧
    getSession (DebugLogger.startImageSession
        [("t1", DebugLogger.freshSession "t1" "j1" "u1" 10)] "t1" "j2" "u2" 20) "t1" =
      some (DebugLogger.freshSession "t1" "j2" "u2" 20) :=
  ⟨by decide,
   (startImageSession_replaces_existing
      [("t1", DebugLogger.freshSession "t1" "j1" "u1" 10)] "t1" "j2" "u2" 20 "t2"
      (by decide)).1⟩

/-- C5 counterexample: recordMethodAttempt with an unknown task id is a
no-op that emits no warning at all (the warning list is empty), contrary to
the claim that every such operation emits a warning. -/
theorem recordMethodAttempt_missing_session_counterexample :
    DebugLogger.recordMethodAttempt [] "t1" "viewport-render" 1 0 =
      some (([] : Sessions), ([] : List String)) := rfl

/-- C5 amended: every Session Tracker operation invoked with a task id that
has no live session never throws and leaves the live-session map (hence
every other session) unchanged; recordCheckpoint emits a warning naming the
missing session, while beginAttempt, recordAttemptResult,
mergeProcessState, finish, end and saveDiagnostics return silently with no
warning. -/
theorem missing_session_ops_noop
    (m : Sessions) (imageId stageName methodName : String)
    (d : CheckpointDetail) (now t num : Nat) (mem : NodeMemory)
    (suc : Bool) (err errStack : Option String) (dom : Option DomState)
    (ext : Option ExtractionDetails) (skp : Option Bool) (skr : Option String)
    (p : PartialProcessState) (shot html : Option String)
    (cl ne : Option (List String))
    (h : getSession m imageId = none) :
    DebugLogger.recordCheckpoint m imageId stageName d now mem =
      (m, ["No session found for " ++ imageId])
  ∧ DebugLogger.recordMethodAttempt m imageId methodName num t = some (m, [])
  ∧ DebugLogger.recordMethodResult m imageId num suc err dom ext now = some (m, [])
  ∧ DebugLogger.recordProcessState m imageId p = (m, [])
  ∧ DebugLogger.recordOutcome m imageId suc err errStack skp skr now = (m, [])
  ∧ DebugLogger.endImageSession m imageId now = (m, [], none)
  ∧ DebugLogger.saveDiagnostics m imageId shot html cl ne = (m, [], []) := by
  refine ⟨?_, ?_, ?_, ?_, ?_, ?_, ?_⟩
  · simp [DebugLogger.recordCheckpoint, h]
  · simp [DebugLogger.recordMethodAttempt, h]
  · simp [DebugLogger.recordMethodResult, h]
  · simp [DebugLogger.recordProcessState, h]
  · simp [DebugLogger.recordOutcome, h]
  · simp [DebugLogger.endImageSession, h]
  · simp [DebugLogger.saveDiagnostics, h]

/-- Witness for missing_session_ops_noop on the empty live-session map. -/
theorem missing_session_ops_noop_witness :
    getSession ([] : Sessions) "t9" = none ∧
    DebugLogger.recordCheckpoint [] "t9" "navigation" {} 3 nodeMem0 =
      ([], ["No session found for t9"]) :=
  ⟨rfl,
   (missing_session_ops_noop [] "t9" "navigation" "m" {} 3 0 0 nodeMem0
      false none none none none none none {} none none none none rfl).1⟩

/-- C10: for a live session, a checkpoint naming the canvas-extraction
stage replaces the entire stage object with the fresh checkpoint merged
with the supplied detail: the new stage holds exactly the detail's mode,
totalAttempts, successfulMethod and methods fields, independent of whatever
the stage held before, so previously recorded attempts are discarded unless
the detail itself carries a methods list. -/
theorem recordCheckpoint_replaces_canvas_stage
    (m : Sessions) (imageId : String) (s : ImageDebugSession)
    (d : CheckpointDetail) (now : Nat) (mem : NodeMemory)
    (h : getSession m imageId = some s) :
    getSession (DebugLogger.recordCheckpoint m imageId "canvasExtraction" d now mem).1
        imageId =
      some (DebugLogger.canvasReplaced s d now mem)
  ∧ canvasOf (DebugLogger.canvasReplaced s d now mem) =
      some (DebugLogger.mergedCheckpointEntry s "canvasExtraction" d now mem)
  ∧ (DebugLogger.mergedCheckpointEntry s "canvasExtraction" d now mem).methods = d.methods
  ∧ (DebugLogger.mergedCheckpointEntry s "canvasExtraction" d now mem).totalAttempts =
      d.totalAttempts
  ∧ (DebugLogger.mergedCheckpointEntry s "canvasExtraction" d now mem).successfulMethod =
      d.successfulMethod := by
  refine ⟨?_, ?_, rfl, rfl, rfl⟩
  · simp only [DebugLogger.recordCheckpoint, h, DebugLogger.canvasReplaced]
    exact getKey_setKey_self m imageId _
  · simp only [DebugLogger.canvasReplaced, canvasOf]
    exact getKey_setKey_self s.stages "canvasExtraction" _

/-- Witness for recordCheckpoint_replaces_canvas_stage. -/
theorem recordCheckpoint_replaces_canvas_stage_witness :
    getSession (DebugLogger.startImageSession [] "t1" "j" "u" 0) "t1" =
      some (DebugLogger.freshSession "t1" "j" "u" 0) ∧
    (DebugLogger.mergedCheckpointEntry (DebugLogger.freshSession "t1" "j" "u" 0)
        "canvasExtraction" {} 7 nodeMem0).methods = none :=
  ⟨rfl,
   (recordCheckpoint_replaces_canvas_stage (DebugLogger.startImageSession [] "t1" "j" "u" 0)
      "t1" (DebugLogger.freshSession "t1" "j" "u" 0) {} 7 nodeMem0 rfl).2.2.1⟩

lemma getKey_setKey {α : Type} (l : List (String × α)) (k k' : String) (v : α) :
    getKey (setKey l k v) k' = if k' = k then some v else getKey l k' := by
  by_cases h : k' = k
  · subst h
    simp [getKey_setKey_self]
  · simp [h, getKey_setKey_ne l k k' v h]

lemma updateStats_attempts_pos (table : List (String × DebugLogger.MethodStats))
    (a : MethodAttempt)
    (h : ∀ nm st, getKey table nm = some st → 0 < st.attempts) :
    ∀ nm st, getKey (DebugLogger.updateStats table a) nm = some st → 0 < st.attempts := by
  intro nm st hst
  simp only [DebugLogger.updateStats] at hst
  rw [getKey_setKey] at hst
  by_cases hnm : nm = a.methodName
  · rw [if_pos hnm] at hst
    cases hst
    simp
  · rw [if_neg hnm] at hst
    exact h nm st hst

lemma foldl_updateStats_attempts_pos (ms : List MethodAttempt) :
    ∀ table, (∀ nm st, getKey table nm = some st → 0 < st.attempts) →
      ∀ nm st, getKey (ms.foldl DebugLogger.updateStats table) nm = some st →
        0 < st.attempts := by
  induction ms with
  | nil => intro table h; exact h
  | cons a rest ih =>
      intro table h
      exact ih (DebugLogger.updateStats table a) (updateStats_attempts_pos table a h)

lemma accumSession_attempts_pos (table : List (String × DebugLogger.MethodStats))
    (s : ImageDebugSession)
    (h : ∀ nm st, getKey table nm = some st → 0 < st.attempts) :
    ∀ nm st, getKey (DebugLogger.accumSession table s) nm = some st → 0 < st.attempts := by
  intro nm st hst
  unfold DebugLogger.accumSession at hst
  cases hc : canvasOf s with
  | none =>
      simp only [hc] at hst
      exact h nm st hst
  | some stage =>
      simp only [hc] at hst
      cases hms : stage.methods with
      | none =>
          simp only [hms] at hst
          exact h nm st hst
      | some ms =>
          simp only [hms] at hst
          exact foldl_updateStats_attempts_pos ms table h nm st hst

lemma accumFiles_attempts_pos (files : List (Option ImageDebugSession)) :
    ∀ table table', (∀ nm st, getKey table nm = some st → 0 < st.attempts) →
      DebugLogger.accumFiles table files = Except.ok table' →
      ∀ nm st, getKey table' nm = some st → 0 < st.attempts := by
  induction files with
  | nil =>
      intro table table' h hok
      cases hok
      exact h
  | cons f rest ih =>
      intro table table' h hok
      cases f with
      | none => cases hok
      | some s =>
          exact ih (DebugLogger.accumSession table s) table'
            (accumSession_attempts_pos table s h) hok

lemma getKey_cons {α : Type} (k : String) (v : α) (rest : List (String × α)) (nm : String) :
    getKey ((k, v) :: rest) nm = if k = nm then some v else getKey rest nm := by
  by_cases h : k = nm <;> simp [getKey, List.find?, h]

lemma getKey_finalizeStats (table : List (String × DebugLogger.MethodStats)) (nm : String) :
    getKey (DebugLogger.finalizeStats table) nm =
      (getKey table nm).map fun st =>
        { st with avgDuration := (st.totalDuration : Rat) / (st.attempts : Rat) } := by
  induction table with
  | nil => rfl
  | cons p rest ih =>
      rcases p with ⟨k, v⟩
      simp only [DebugLogger.finalizeStats, List.map_cons] at ih ⊢
      rw [getKey_cons, getKey_cons]
      by_cases h : k = nm
      · simp [h]
      · simp [h, ih]

lemma accumFiles_error_of_malformed (files : List (Option ImageDebugSession)) :
    ∀ table, none ∈ files →
      DebugLogger.accumFiles table files = Except.error () := by
  induction files with
  | nil => intro table h; cases h
  | cons f rest ih =>
      intro table h
      cases f with
      | none => rfl
      | some s =>
          rcases List.mem_cons.mp h with h1 | h2
          · cases h1
          · exact ih (DebugLogger.accumSession table s) h2

/-- C4 counterexample: with summary data present, a scan over one malformed
record followed by one well-formed record aborts with the parse error
instead of skipping the malformed record and returning statistics from the
rest. -/
theorem getMethodStatistics_malformed_aborts_counterexample :
    DebugLogger.getMethodStatistics true 1 [none, some (statSession 100 true)] =
      Except.error ()
  ∧ ∀ r, DebugLogger.getMethodStatistics true 1 [none, some (statSession 100 true)] ≠
      Except.ok r := by
  refine ⟨rfl, ?_⟩
  intro r h
  rw [show DebugLogger.getMethodStatistics true 1 [none, some (statSession 100 true)] =
        Except.error () from rfl] at h
  cases h

/-- C4 amended: when summary data exists and any persisted record is
malformed, computeMethodStatistics aborts the whole scan with the parse
error instead of skipping the record; when no summary data exists yet it
reports that fact rather than raising an error. -/
theorem getMethodStatistics_aborts_on_malformed
    (n : Nat) (files : List (Option ImageDebugSession)) (h : none ∈ files) :
    DebugLogger.getMethodStatistics true n files = Except.error ()
  ∧ DebugLogger.getMethodStatistics false n files =
      Except.ok (DebugLogger.StatsResult.noData "No summary data available yet") := by
  constructor
  · simp only [DebugLogger.getMethodStatistics, Bool.not_true, Bool.false_eq_true, if_false]
    rw [accumFiles_error_of_malformed files [] h]
  · rfl

/-- Witness for getMethodStatistics_aborts_on_malformed. -/
theorem getMethodStatistics_aborts_on_malformed_witness :
    (none ∈ [(none : Option ImageDebugSession)]) ∧
    DebugLogger.getMethodStatistics true 0 [(none : Option ImageDebugSession)] =
      Except.error () :=
  ⟨List.mem_singleton.mpr rfl,
   (getMethodStatistics_aborts_on_malformed 0 [none] (List.mem_singleton.mpr rfl)).1⟩

/-- C7: every per-method record the aggregator returns has a positive
attempt count (so the 0-when-no-attempts clause is vacuous and the average
is a well-defined rational, never not-a-number) and satisfies
avgDuration = totalDuration / attempts; in the concrete scenario of three
persisted sessions where viewport-render succeeds with durations 100 and
200 and fails with duration 50, it reports attempts 3, successes 2,
failures 1 and average duration 350/3. -/
theorem getMethodStatistics_attempts_pos_and_scenario
    (se : Bool) (n tot : Nat) (files : List (Option ImageDebugSession))
    (table : List (String × DebugLogger.MethodStats)) (nm : String)
    (st : DebugLogger.MethodStats)
    (h1 : DebugLogger.getMethodStatistics se n files =
            Except.ok (DebugLogger.StatsResult.stats tot table))
    (h2 : getKey table nm = some st) :
    0 < st.attempts
  ∧ st.avgDuration = (st.totalDuration : Rat) / (st.attempts : Rat)
  ∧ DebugLogger.getMethodStatistics true 3 scenarioFiles =
      Except.ok (DebugLogger.StatsResult.stats 3 [("viewport-render", scenarioStats)]) := by
  have hmain : 0 < st.attempts ∧
      st.avgDuration = (st.totalDuration : Rat) / (st.attempts : Rat) := by
    cases se with
    | false =>
        simp only [DebugLogger.getMethodStatistics, Bool.not_false, if_pos] at h1
        cases h1
    | true =>
        simp only [DebugLogger.getMethodStatistics, Bool.not_true, Bool.false_eq_true,
          if_false] at h1
        cases hacc : DebugLogger.accumFiles [] files with
        | error e => rw [hacc] at h1; cases h1
        | ok t0 =>
            rw [hacc] at h1
            cases h1
            rw [getKey_finalizeStats] at h2
            cases ht0 : getKey t0 nm with
            | none => rw [ht0] at h2; cases h2
            | some st0 =>
                rw [ht0] at h2
                cases h2
                have hpos := accumFiles_attempts_pos files [] t0
                  (by intro nm' st' h'; cases h') hacc nm st0 ht0
                exact ⟨hpos, rfl⟩
  exact ⟨hmain.1, hmain.2, by rfl⟩

/-- Witness for getMethodStatistics_attempts_pos_and_scenario, applied at
the scenario input itself. -/
theorem getMethodStatistics_scenario_witness :
    getKey [("viewport-render", scenarioStats)] "viewport-render" = some scenarioStats ∧
    0 < scenarioStats.attempts :=
  ⟨rfl,
   (getMethodStatistics_attempts_pos_and_scenario true 3 3 scenarioFiles
      [("viewport-render", scenarioStats)] "viewport-render" scenarioStats
      (by rfl) (by rfl)).1⟩

lemma setSession_self (m : Sessions) (imageId : String) (s : ImageDebugSession)
    (h : getSession m imageId = some s) : setSession m imageId s = m := by
  induction m with
  | nil => cases h
  | cons p rest ih =>
      rcases p with ⟨k, v⟩
      rw [show getSession ((k, v) :: rest) imageId =
            getKey ((k, v) :: rest) imageId from rfl, getKey_cons] at h
      by_cases hk : k = imageId
      · rw [if_pos hk] at h
        cases h
        simp [setSession, setKey, hk]
      · rw [if_neg hk] at h
        simp only [setSession, setKey]
        rw [if_neg hk]
        rw [show setKey rest imageId s = setSession rest imageId s from rfl, ih h]

/-- C8 counterexample: a live session whose canvas-extraction stage was
written by a checkpoint without a methods list (a type-correct call of
recordCheckpoint with no detail) makes recordAttemptResult throw on the
find over the absent methods property, rather than be a no-op: the call
returns none. -/
theorem recordMethodResult_checkpointed_stage_counterexample :
    getSession (DebugLogger.recordCheckpoint
        (DebugLogger.startImageSession [] "t1" "j" "u" 0) "t1"
        "canvasExtraction" {} 5 nodeMem0).1 "t1" =
      some (DebugLogger.canvasReplaced (DebugLogger.freshSession "t1" "j" "u" 0)
        {} 5 nodeMem0)
  ∧ DebugLogger.recordMethodResult (DebugLogger.recordCheckpoint
        (DebugLogger.startImageSession [] "t1" "j" "u" 0) "t1"
        "canvasExtraction" {} 5 nodeMem0).1 "t1" 1 true none none none 9 = none :=
  ⟨rfl, rfl⟩

/-- C8 amended: for every live session whose canvas-extraction stage is
absent or holds a methods list, calling recordAttemptResult with a rank for
which no beginAttempt was recorded is a no-op: the call does not throw and
returns the live-session map unchanged with no warning.  (Only a session
whose canvas stage was replaced by a checkpoint without a methods list
escapes this guarantee, by throwing on the find.) -/
theorem recordMethodResult_unbegun_rank_noop
    (m : Sessions) (imageId : String) (s : ImageDebugSession) (num : Nat)
    (suc : Bool) (err : Option String) (dom : Option DomState)
    (ext : Option ExtractionDetails) (now : Nat)
    (h1 : getSession m imageId = some s)
    (h2 : canvasOf s = none ∨
          ∃ stage ms, canvasOf s = some stage ∧ stage.methods = some ms ∧
            ∀ a ∈ ms, a.methodNumber ≠ num) :
    DebugLogger.recordMethodResult m imageId num suc err dom ext now = some (m, []) := by
  have hres : DebugLogger.recResultS s num suc err dom ext now = some s := by
    rcases h2 with hc | ⟨stage, ms, hc, hms, hall⟩
    · simp only [DebugLogger.recResultS, hc]
    · have hfind : ms.find? (fun a => a.methodNumber = num) = none := by
        rw [List.find?_eq_none]
        intro a ha
        simp [hall a ha]
      simp only [DebugLogger.recResultS, hc, hms, hfind]
  simp only [DebugLogger.recordMethodResult, h1, hres]
  simp [setSession_self m imageId s h1]

/-- Witness for recordMethodResult_unbegun_rank_noop on a freshly started
session with no canvas-extraction stage. -/
theorem recordMethodResult_unbegun_rank_noop_witness :
    getSession (DebugLogger.startImageSession [] "t1" "j" "u" 0) "t1" =
      some (DebugLogger.freshSession "t1" "j" "u" 0) ∧
    DebugLogger.recordMethodResult (DebugLogger.startImageSession [] "t1" "j" "u" 0)
        "t1" 1 true none none none 5 =
      some (DebugLogger.startImageSession [] "t1" "j" "u" 0, []) :=
  ⟨rfl,
   recordMethodResult_unbegun_rank_noop
      (DebugLogger.startImageSession [] "t1" "j" "u" 0) "t1"
      (DebugLogger.freshSession "t1" "j" "u" 0) 1 true none none none 5 rfl
      (Or.inl rfl)⟩

lemma recAttemptS_spec (s : ImageDebugSession) (stage : StageEntry)
    (ms : List MethodAttempt) (nm : String) (k t : Nat)
    (hc : canvasOf s = some stage) (hms : stage.methods = some ms) :
    ∃ s' stage', DebugLogger.recAttemptS s nm k t = some s'
      ∧ canvasOf s' = some stage'
      ∧ stage'.methods = some (ms ++ [DebugLogger.mkAttempt nm k t])
      ∧ stage'.successfulMethod = stage.successfulMethod := by
  simp only [DebugLogger.recAttemptS, hc, hms]
  exact ⟨_, _, rfl, getKey_setKey_self s.stages "canvasExtraction" _, rfl, rfl⟩

lemma beginAll_spec (calls : List AttemptCall) :
    ∀ (s : ImageDebugSession) (stage : StageEntry) (ms : List MethodAttempt),
      canvasOf s = some stage → stage.methods = some ms →
      ∃ s' stage', beginAll s calls = some s'
        ∧ canvasOf s' = some stage'
        ∧ stage'.methods = some (ms ++ calls.map mkOfCall)
        ∧ stage'.successfulMethod = stage.successfulMethod := by
  induction calls with
  | nil =>
      intro s stage ms hc hms
      exact ⟨s, stage, rfl, hc, by simpa using hms, rfl⟩
  | cons c rest ih =>
      intro s stage ms hc hms
      obtain ⟨s1, stage1, h1, hc1, hms1, hsm1⟩ :=
        recAttemptS_spec s stage ms c.methodName c.rank c.startTime hc hms
      obtain ⟨s', stage', h2, hc2, hms2, hsm2⟩ := ih s1 stage1 _ hc1 hms1
      refine ⟨s', stage', ?_, hc2, ?_, by rw [hsm2, hsm1]⟩
      · simp [beginAll, h1, h2]
      · rw [hms2]
        simp [mkOfCall]

lemma beginAll_fresh (s : ImageDebugSession) (c : AttemptCall)
    (rest : List AttemptCall) (hc : canvasOf s = none) :
    ∃ s' stage', beginAll s (c :: rest) = some s'
      ∧ canvasOf s' = some stage'
      ∧ stage'.methods = some ((c :: rest).map mkOfCall)
      ∧ stage'.successfulMethod = none := by
  obtain ⟨s1, hstep⟩ : ∃ s1, DebugLogger.recAttemptS s c.methodName c.rank c.startTime = some s1 ∧
      canvasOf s1 = some { DebugLogger.freshCanvasStage s c.startTime with
        methods := some [mkOfCall c], totalAttempts := some 1 } := by
    simp only [DebugLogger.recAttemptS, hc, DebugLogger.freshCanvasStage]
    exact ⟨_, rfl, getKey_setKey_self s.stages "canvasExtraction" _⟩
  obtain ⟨hstep1, hc1⟩ := hstep
  obtain ⟨s', stage', h2, hc2, hms2, hsm2⟩ :=
    beginAll_spec rest s1 _ [mkOfCall c] hc1 rfl
  refine ⟨s', stage', ?_, hc2, ?_, by rw [hsm2]; rfl⟩
  · simp [beginAll, hstep1, h2]
  · rw [hms2]
    simp

lemma map_methodNumber_mkOfCall (calls : List AttemptCall) :
    (calls.map mkOfCall).map MethodAttempt.methodNumber =
      calls.map AttemptCall.rank := by
  induction calls with
  | nil => rfl
  | cons c rest ih => simp [mkOfCall, DebugLogger.mkAttempt, ih]

/-- C9 counterexample: two beginAttempt calls both supplying rank 1 store
rank values [1, 1] in the methods list: the stored ranks are neither unique
nor strictly increasing. -/
theorem beginAttempt_duplicate_ranks_counterexample :
    (beginAll (DebugLogger.freshSession "t1" "j" "u" 0)
        [{ methodName := "a", rank := 1, startTime := 2 },
         { methodName := "b", rank := 1, startTime := 3 }]).bind canvasRanks =
      some [1, 1]
  ∧ ¬ ([1, 1] : List Nat).Nodup := by
  exact ⟨rfl, by decide⟩

/-- C9 amended: the rank values stored in the canvas-extraction methods
list are exactly the caller-supplied rank arguments in call order; the
tracker does not enforce uniqueness or monotonicity, so the stored ranks
are unique and strictly increasing precisely when the caller supplies them
so (as it does when ranking a fallback chain 1..N). -/
theorem beginAttempt_ranks_caller_supplied
    (s : ImageDebugSession) (c : AttemptCall) (rest : List AttemptCall)
    (hc : canvasOf s = none) :
    ∃ s', beginAll s (c :: rest) = some s'
      ∧ canvasRanks s' = some ((c :: rest).map AttemptCall.rank)
      ∧ (∀ ranks, canvasRanks s' = some ranks →
          ((c :: rest).map AttemptCall.rank).Pairwise (· < ·) →
          ranks.Pairwise (· < ·) ∧ ranks.Nodup) := by
  obtain ⟨s', stage', h1, hc2, hms2, hsm2⟩ := beginAll_fresh s c rest hc
  have hranks : canvasRanks s' = some ((c :: rest).map AttemptCall.rank) := by
    simp [canvasRanks, canvasMethods, hc2, hms2, mkOfCall, DebugLogger.mkAttempt]
  refine ⟨s', h1, hranks, ?_⟩
  intro ranks hr hpair
  rw [hranks] at hr
  cases hr
  exact ⟨hpair, hpair.imp fun hlt => Nat.ne_of_lt hlt⟩

/-- Witness for beginAttempt_ranks_caller_supplied. -/
theorem beginAttempt_ranks_caller_supplied_witness :
    canvasOf (DebugLogger.freshSession "t1" "j" "u" 0) = none ∧
    ∃ s', beginAll (DebugLogger.freshSession "t1" "j" "u" 0)
        [{ methodName := "a", rank := 1, startTime := 2 }] = some s'
      ∧ canvasRanks s' = some [1] := by
  refine ⟨rfl, ?_⟩
  obtain ⟨s', h1, h2, h3⟩ := beginAttempt_ranks_caller_supplied
    (DebugLogger.freshSession "t1" "j" "u" 0)
    { methodName := "a", rank := 1, startTime := 2 } [] rfl
  exact ⟨s', h1, by simpa using h2⟩

lemma firstNameAt_cons (a : MethodAttempt) (l : List MethodAttempt) (k : Nat) :
    firstNameAt (a :: l) k =
      if a.methodNumber = k then some a.methodName else firstNameAt l k := by
  by_cases h : a.methodNumber = k <;> simp [firstNameAt, List.find?, h]

lemma updateFirst_length (l : List MethodAttempt) (k : Nat)
    (f : MethodAttempt → MethodAttempt) :
    (DebugLogger.updateFirst l k f).length = l.length := by
  induction l with
  | nil => rfl
  | cons a rest ih =>
      simp only [DebugLogger.updateFirst]
      by_cases h : a.methodNumber = k
      · rw [if_pos h]
        simp
      · rw [if_neg h]
        simp [ih]

lemma firstNameAt_updateFirst (l : List MethodAttempt) (k k' : Nat)
    (f : MethodAttempt → MethodAttempt)
    (hname : ∀ a, (f a).methodName = a.methodName)
    (hnum : ∀ a, (f a).methodNumber = a.methodNumber) :
    firstNameAt (DebugLogger.updateFirst l k f) k' = firstNameAt l k' := by
  induction l with
  | nil => rfl
  | cons a rest ih =>
      simp only [DebugLogger.updateFirst]
      by_cases h : a.methodNumber = k
      · rw [if_pos h, firstNameAt_cons, firstNameAt_cons, hnum, hname]
      · rw [if_neg h, firstNameAt_cons, firstNameAt_cons, ih]

lemma recResultS_spec (s : ImageDebugSession) (stage : StageEntry)
    (ms : List MethodAttempt) (r : ResultCall)
    (hc : canvasOf s = some stage) (hms : stage.methods = some ms) :
    ∃ s' stage' ms',
      DebugLogger.recResultS s r.rank r.success r.error r.domState
          r.extractionDetails r.now = some s'
      ∧ canvasOf s' = some stage'
      ∧ stage'.methods = some ms'
      ∧ ms'.length = ms.length
      ∧ (∀ k, firstNameAt ms' k = firstNameAt ms k)
      ∧ stage'.successfulMethod = nextSM ms stage.successfulMethod r := by
  cases hfind : ms.find? (fun a => a.methodNumber = r.rank) with
  | none =>
      have hfn : firstNameAt ms r.rank = none := by simp [firstNameAt, hfind]
      refine ⟨s, stage, ms, ?_, hc, hms, rfl, fun k => rfl, ?_⟩
      · simp only [DebugLogger.recResultS, hc, hms, hfind]
      · simp [nextSM, hfn]
  | some found =>
      have hfn : firstNameAt ms r.rank = some found.methodName := by
        simp [firstNameAt, hfind]
      have key : DebugLogger.recResultS s r.rank r.success r.error r.domState
          r.extractionDetails r.now =
          some { s with stages := (setKey s.stages "canvasExtraction" (DebugLogger.resultStage stage ms r found)) } := by
        simp only [DebugLogger.recResultS, hc, hms, hfind, DebugLogger.resultStage]
      refine ⟨_, _, _, key, getKey_setKey_self s.stages "canvasExtraction" _, rfl,
        updateFirst_length ms r.rank _,
        fun k => firstNameAt_updateFirst ms r.rank k _ (fun a => rfl) (fun a => rfl), ?_⟩
      simp [nextSM, hfn, DebugLogger.resultStage]

lemma nextSM_congr (ms1 ms2 : List MethodAttempt)
    (h : ∀ k, firstNameAt ms1 k = firstNameAt ms2 k) (d : Option String)
    (r : ResultCall) : nextSM ms1 d r = nextSM ms2 d r := by
  simp [nextSM, h r.rank]

lemma foldl_nextSM_congr (rs : List ResultCall) (ms1 ms2 : List MethodAttempt)
    (h : ∀ k, firstNameAt ms1 k = firstNameAt ms2 k) :
    ∀ d, rs.foldl (nextSM ms1) d = rs.foldl (nextSM ms2) d := by
  induction rs with
  | nil => intro d; rfl
  | cons r rest ih =>
      intro d
      simp only [List.foldl_cons]
      rw [nextSM_congr ms1 ms2 h d r]
      exact ih _

lemma applyResults_spec (rs : List ResultCall) :
    ∀ (s : ImageDebugSession) (stage : StageEntry) (ms : List MethodAttempt),
      canvasOf s = some stage → stage.methods = some ms →
      ∃ s' stage' ms', applyResults (some s) rs = some s'
        ∧ canvasOf s' = some stage'
        ∧ stage'.methods = some ms'
        ∧ ms'.length = ms.length
        ∧ (∀ k, firstNameAt ms' k = firstNameAt ms k)
        ∧ stage'.successfulMethod = rs.foldl (nextSM ms) stage.successfulMethod := by
  induction rs with
  | nil =>
      intro s stage ms hc hms
      exact ⟨s, stage, ms, rfl, hc, hms, rfl, fun k => rfl, rfl⟩
  | cons r rest ih =>
      intro s stage ms hc hms
      obtain ⟨s1, stage1, ms1, h1, hc1, hms1, hlen1, hfn1, hsm1⟩ :=
        recResultS_spec s stage ms r hc hms
      obtain ⟨s', stage', ms', h2, hc2, hms2, hlen2, hfn2, hsm2⟩ :=
        ih s1 stage1 ms1 hc1 hms1
      refine ⟨s', stage', ms', ?_, hc2, hms2, by rw [hlen2, hlen1],
        fun k => by rw [hfn2 k, hfn1 k], ?_⟩
      · have hstep : applyResults (some s) (r :: rest) =
            applyResults (DebugLogger.recResultS s r.rank r.success r.error
              r.domState r.extractionDetails r.now) rest := rfl
        rw [hstep, h1]
        exact h2
      · rw [hsm2, foldl_nextSM_congr rest ms1 ms hfn1, hsm1, List.foldl_cons]

lemma getLast?_cons_eq {α : Type} (a : α) (l : List α) :
    (a :: l).getLast? = some (l.getLast?.getD a) := by
  induction l generalizing a with
  | nil => rfl
  | cons b rest ih =>
      rw [List.getLast?_cons_cons, ih b]
      simp

lemma foldl_nextSM_eq_lastSuccess (ms : List MethodAttempt)
    (f : ResultCall → String) :
    ∀ (rs : List ResultCall),
      (∀ r ∈ rs, r.success = true → firstNameAt ms r.rank = some (f r)) →
      ∀ d, rs.foldl (nextSM ms) d = lastSuccessName f rs d := by
  intro rs
  induction rs with
  | nil => intro h d; rfl
  | cons r rest ih =>
      intro h d
      rw [List.foldl_cons, ih (fun r' hm hs => h r' (List.mem_cons_of_mem r hm) hs)]
      cases hs : r.success with
      | false => simp [nextSM, hs, lastSuccessName, List.filter_cons]
      | true =>
          have hfn := h r (List.mem_cons_self r rest) hs
          simp only [nextSM, hs, if_true, hfn]
          simp only [lastSuccessName, List.filter_cons, hs, if_true, getLast?_cons_eq]
          cases hl : (rest.filter fun r => r.success).getLast? with
          | none => simp [hl]
          | some r' => simp [hl]

lemma rankedCalls_length (t : Nat) (names : List String) :
    ∀ i, (rankedCalls t names i).length = names.length := by
  induction names with
  | nil => intro i; rfl
  | cons nm rest ih => intro i; simp [rankedCalls, ih]

lemma firstNameAt_rankedCalls (t : Nat) (names : List String) :
    ∀ i k, i ≤ k → k < i + names.length →
      firstNameAt ((rankedCalls t names i).map mkOfCall) k =
        some (names.getD (k - i) "") := by
  induction names with
  | nil =>
      intro i k h1 h2
      simp at h2
      omega
  | cons nm rest ih =>
      intro i k h1 h2
      simp only [rankedCalls, List.map_cons, firstNameAt_cons]
      by_cases hk : i = k
      · rw [if_pos (by simpa [mkOfCall, DebugLogger.mkAttempt] using hk)]
        subst hk
        simp [mkOfCall, DebugLogger.mkAttempt]
      · rw [if_neg (by simpa [mkOfCall, DebugLogger.mkAttempt] using hk)]
        have hrec := ih (i + 1) k (by omega) (by simp at h2; omega)
        rw [hrec, show k - i = (k - (i + 1)) + 1 from by omega, List.getD_cons_succ]

/-- C2 counterexample: begin attempts a (rank 1) and b (rank 2), then
record both as successful, rank 1 first: successfulMethod ends as b, the
last recorded success, even though the lowest-ranked successful attempt is
a. -/
theorem recordAttemptResult_order_counterexample :
    (applyResults (beginAll (DebugLogger.freshSession "t1" "j" "u" 0)
        [{ methodName := "a", rank := 1, startTime := 0 },
         { methodName := "b", rank := 2, startTime := 0 }])
        [{ rank := 1, success := true, now := 5 },
         { rank := 2, success := true, now := 6 }]).bind canvasSuccessfulMethod =
      some (some "b")
  ∧ (applyResults (beginAll (DebugLogger.freshSession "t1" "j" "u" 0)
        [{ methodName := "a", rank := 1, startTime := 0 },
         { methodName := "b", rank := 2, startTime := 0 }])
        [{ rank := 1, success := true, now := 5 },
         { rank := 2, success := true, now := 6 }]).bind
        (fun s => (canvasMethods s).map
          (List.map fun a => (a.methodNumber, a.methodName, a.success))) =
      some [(1, "a", true), (2, "b", true)]
  ∧ ("b" : String) ≠ "a" := by
  exact ⟨rfl, rfl, by decide⟩

/-- C2 amended: beginning attempts for ranks 1..N (N at least 1) and then
recording a result for each rank in any order yields a canvas-extraction
stage whose methods list has length N; its successfulMethod equals the
name at the rank of the result recorded last among the successful ones
when any result succeeded, and is unset otherwise.  (The source keeps the
last recorded success, not the lowest-ranked one.) -/
theorem canvas_methods_length_and_last_recorded_success
    (imageId jobId url : String) (t0 t : Nat) (nm0 : String)
    (names : List String) (rs : List ResultCall)
    (hr : ∀ r ∈ rs, 1 ≤ r.rank ∧ r.rank ≤ (nm0 :: names).length) :
    ∃ s' stage' ms',
      applyResults (beginAll (DebugLogger.freshSession imageId jobId url t0)
          (rankedCalls t (nm0 :: names) 1)) rs = some s'
      ∧ canvasOf s' = some stage'
      ∧ stage'.methods = some ms'
      ∧ ms'.length = (nm0 :: names).length
      ∧ stage'.successfulMethod =
          lastSuccessName (fun r => (nm0 :: names).getD (r.rank - 1) "") rs none := by
  have hfresh : canvasOf (DebugLogger.freshSession imageId jobId url t0) = none := rfl
  rw [show rankedCalls t (nm0 :: names) 1 =
        { methodName := nm0, rank := 1, startTime := t } :: rankedCalls t names 2
      from rfl]
  obtain ⟨sB, stageB, hB, hcB, hmsB, hsmB⟩ :=
    beginAll_fresh (DebugLogger.freshSession imageId jobId url t0)
      { methodName := nm0, rank := 1, startTime := t } (rankedCalls t names 2) hfresh
  obtain ⟨s', stage', ms', hA, hc', hms', hlen, hfn, hsm⟩ :=
    applyResults_spec rs sB stageB _ hcB hmsB
  refine ⟨s', stage', ms', ?_, hc', hms', ?_, ?_⟩
  · rw [hB]
    exact hA
  · rw [hlen]
    simp [rankedCalls_length]
  · rw [hsm, hsmB]
    refine foldl_nextSM_eq_lastSuccess _ _ rs ?_ none
    intro r hm hs
    obtain ⟨hr1, hr2⟩ := hr r hm
    have := firstNameAt_rankedCalls t (nm0 :: names) 1 r.rank hr1
      (by simp at hr2 ⊢; omega)
    exact this

/-- Witness for canvas_methods_length_and_last_recorded_success with one
method and one successful result. -/
theorem canvas_methods_length_and_last_recorded_success_witness :
    (∀ r ∈ [({ rank := 1, success := true, now := 5 } : ResultCall)],
        1 ≤ r.rank ∧ r.rank ≤ ("a" :: ([] : List String)).length) ∧
    (∃ s' stage' ms',
      applyResults (beginAll (DebugLogger.freshSession "t" "j" "u" 0)
          (rankedCalls 3 ("a" :: ([] : List String)) 1))
          [({ rank := 1, success := true, now := 5 } : ResultCall)] = some s'
      ∧ canvasOf s' = some stage'
      ∧ stage'.methods = some ms'
      ∧ ms'.length = ("a" :: ([] : List String)).length
      ∧ stage'.successfulMethod =
          lastSuccessName (fun r => ("a" :: ([] : List String)).getD (r.rank - 1) "")
            [({ rank := 1, success := true, now := 5 } : ResultCall)] none) :=
  ⟨by decide,
   canvas_methods_length_and_last_recorded_success "t" "j" "u" 0 3 "a" []
      [({ rank := 1, success := true, now := 5 } : ResultCall)] (by decide)⟩

/-- Witness for reset_zeroes_and_recycles_only_at_limit. -/
theorem reset_zeroes_and_recycles_only_at_limit_witness :
    (0 : Rat) ≤ (ProcessRecyclingManager.create 3 nodeMem0 0).memoryThresholdMB ∧
    ((ProcessRecyclingManager.create 3 nodeMem0 0).reset nodeMem0 5).getTasksCompleted = 0 :=
  ⟨by norm_num [ProcessRecyclingManager.create],
   (reset_zeroes_and_recycles_only_at_limit
      (ProcessRecyclingManager.create 3 nodeMem0 0) nodeMem0 5 0 1
      (by norm_num [ProcessRecyclingManager.create])).1⟩

end Reverty
